import Mathlib

/-!
Shallow embedding of the voice-chat-ai capture core (audio_recorder.py,
the capture-gate parts of main.py, and the helpers of vad_processor.py it
uses), together with theorems settling the specification claims about it.

Modelling choices.  Byte streams are lists of naturals; float-valued wall
clock times, durations and amplitudes are exact rationals; the external
collaborators (WebRTC VAD, the amplitude computation, the SenseVoice
recognizer, MD5, DeepSeek, TTS) enter as oracle inputs or function
parameters, exactly at the boundaries the source calls them.
-/

namespace VoiceChat

/-- Lowercase a string, Python str.lower as far as the modelled tests need
it; written over the underlying character list so that it reduces in the
kernel. -/
def str_lower (s : String) : String := String.mk (s.data.map Char.toLower)

/-- Bool test that the first character list is an initial run of the
second. -/
def starts_with_chars : List Char → List Char → Bool
  | [], _ => true
  | _ :: _, [] => false
  | a :: as, b :: bs => a == b && starts_with_chars as bs

/-- Bool test that needle occurs contiguously inside the second list, the
Python substring test needle in hay. -/
def has_sub_chars (needle : List Char) : List Char → Bool
  | [] => starts_with_chars needle []
  | b :: bs => starts_with_chars needle (b :: bs) || has_sub_chars needle bs

/-- Python needle in hay on strings. -/
def str_contains (hay needle : String) : Bool := has_sub_chars needle.data hay.data

/-- vad_processor.VADProcessor.stereo_to_mono for channels = 2: the byte
stream is interleaved int16 frames of four bytes (left low, left high,
right low, right high); keep the left channel of each frame.  numpy would
reject a stream that is not whole frames; here trailing bytes short of a
frame are dropped. -/
def stereo_to_mono : List Nat → List Nat
  | l :: h :: _ :: _ :: rest => l :: h :: stereo_to_mono rest
  | _ => []

/-- One detection window as process_audio_buffer sees it: the raw stereo
int16 bytes drained from the audio buffer once they cover 0.3 s, with the
VAD verdict (vad_processor.check_vad_activity) and the peak amplitude
(vad_processor.calculate_audio_amplitude) computed from them.  The VAD and
the amplitude computation are the external oracle of this model. -/
structure Window where
  bytes : List Nat
  vad_result : Bool
  amplitude : ℚ

/-- An audio_item placed on the ASR queue by process_speech_segments:
(mono_audio, audio_length, actual_speech_duration). -/
structure DispatchItem where
  mono_audio : List Nat
  audio_length : ℚ
  actual_speech_duration : ℚ

/-- The AudioRecorder.__init__ configuration fields the segmentation state
machine and the dispatch queue read.  Float-valued settings are modelled as
exact rationals.  speech_confirmation_threshold is the instance field the
source sets to 2. -/
structure Config where
  samplerate : ℚ
  silence_timeout : ℚ
  min_speech_duration : ℚ
  asr_queue_size : Nat
  speech_confirmation_threshold : Nat

/-- The local constant amplitude_threshold = 0.1 of process_audio_buffer. -/
def amplitude_threshold : ℚ := 1/10

/-- The mutable AudioRecorder state the modelled methods touch.
speech_start_time is write-only in the source and omitted.  resume_calls
and effective_resumes are ghost counters: every invocation of
resume_recording, and the invocations that actually flip is_paused from
true to false. -/
structure RecState where
  is_paused : Bool
  is_recording_speech : Bool
  consecutive_speech_count : Nat
  speech_segments : List (List Nat)
  actual_speech_duration : ℚ
  last_active_time : ℚ
  is_processing : Bool
  show_standby_status : Bool
  enable_asr : Bool
  has_speech_recognizer : Bool
  asr_consumer_active : Bool
  asr_queue : List DispatchItem
  stat_queued : Nat
  stat_processed : Nat
  stat_dropped : Nat
  stat_short_recordings : Nat
  stat_failed_recognitions : Nat
  resume_calls : Nat
  effective_resumes : Nat

/-- The trigger test of process_audio_buffer:
vad_result and amplitude > amplitude_threshold. -/
def is_speech_candidate (w : Window) : Prop :=
  w.vad_result = true ∧ amplitude_threshold < w.amplitude

instance : DecidablePred is_speech_candidate := fun w =>
  inferInstanceAs (Decidable (w.vad_result = true ∧ amplitude_threshold < w.amplitude))

/-- AudioRecorder.process_speech_segments: join the recorded segments, fold
to mono, compute audio_length = len(mono) / (samplerate * 2); with ASR on
and a recognizer loaded, put_nowait on the bounded queue (a queue at its
positive capacity raises Full: the item is dropped and counted); otherwise
the debug wav save, which touches only the file system.  is_processing is
raised and lowered again inside the call, a net no-op here, and the
segment list is cleared on every branch that runs. -/
def process_speech_segments (cfg : Config) (s : RecState) : RecState :=
  if s.speech_segments = [] ∨ s.is_processing = true then s
  else
    let mono := stereo_to_mono s.speech_segments.flatten
    let audio_length : ℚ := (mono.length : ℚ) / (cfg.samplerate * 2)
    if s.enable_asr = true ∧ s.has_speech_recognizer = true then
      if 0 < cfg.asr_queue_size ∧ cfg.asr_queue_size ≤ s.asr_queue.length then
        { s with stat_dropped := s.stat_dropped + 1, speech_segments := [] }
      else
        { s with
            asr_queue := s.asr_queue ++ [⟨mono, audio_length, s.actual_speech_duration⟩]
            stat_queued := s.stat_queued + 1
            speech_segments := [] }
    else
      { s with speech_segments := [] }

/-- The end-of-recording check at the tail of process_audio_buffer: while
recording, once current_time - last_active_time exceeds silence_timeout and
no finalisation is in flight, either pause capture and dispatch (speech
long enough) or count a short recording and discard its segments; in both
cases reset the per-utterance state, restoring the standby display only
when not left paused. -/
def end_of_recording_check (cfg : Config) (s : RecState) (now : ℚ) : RecState :=
  if s.is_recording_speech = true ∧ cfg.silence_timeout < now - s.last_active_time
      ∧ s.is_processing = false then
    let s1 :=
      if cfg.min_speech_duration ≤ s.actual_speech_duration then
        process_speech_segments cfg { s with is_paused := true, show_standby_status := false }
      else
        { s with
            stat_short_recordings := s.stat_short_recordings + 1
            speech_segments := [] }
    let s2 := { s1 with is_recording_speech := false, actual_speech_duration := 0 }
    if s2.is_paused = true then s2 else { s2 with show_standby_status := true }
  else s

/-- AudioRecorder.process_audio_buffer on one drained detection window at
wall-clock time now: the paused early return; the speech branch with its
confirmation hysteresis (consecutive_speech_count incremented, recording
started only once the count reaches speech_confirmation_threshold,
otherwise an early return that buffers nothing); the silence branch
resetting the counter and, while recording, retaining the silent window
without crediting speech time; then the end-of-recording check. -/
def process_audio_buffer (cfg : Config) (s : RecState) (w : Window) (now : ℚ) : RecState :=
  if s.is_paused = true then s
  else if is_speech_candidate w then
    let s1 := { s with consecutive_speech_count := s.consecutive_speech_count + 1 }
    if s1.is_recording_speech = false
        ∧ s1.consecutive_speech_count < cfg.speech_confirmation_threshold then
      s1
    else
      let s2 :=
        if s1.is_recording_speech = true then s1
        else
          { s1 with
              is_recording_speech := true
              speech_segments := []
              actual_speech_duration := 0
              show_standby_status := false }
      let s3 := { s2 with
          last_active_time := now
          speech_segments := s2.speech_segments ++ [w.bytes]
          actual_speech_duration := s2.actual_speech_duration + 3/10 }
      end_of_recording_check cfg s3 now
  else
    let s1 := { s with
        consecutive_speech_count := 0
        speech_segments :=
          if s.is_recording_speech = true then s.speech_segments ++ [w.bytes]
          else s.speech_segments }
    end_of_recording_check cfg s1 now

/-- Fold process_audio_buffer over a timed window sequence. -/
def run_windows (cfg : Config) : RecState → List (Window × ℚ) → RecState
  | s, [] => s
  | s, (w, t) :: rest => run_windows cfg (process_audio_buffer cfg s w t) rest

/-- The recorder state right after AudioRecorder.__init__ with ASR enabled
and its model loaded; t0 is the time.time() stored into last_active_time. -/
def init_state (t0 : ℚ) : RecState where
  is_paused := false
  is_recording_speech := false
  consecutive_speech_count := 0
  speech_segments := []
  actual_speech_duration := 0
  last_active_time := t0
  is_processing := false
  show_standby_status := true
  enable_asr := true
  has_speech_recognizer := true
  asr_consumer_active := true
  asr_queue := []
  stat_queued := 0
  stat_processed := 0
  stat_dropped := 0
  stat_short_recordings := 0
  stat_failed_recognitions := 0
  resume_calls := 0
  effective_resumes := 0

/-- AudioRecorder.resume_recording, with the ghost counters: resume_calls
on every invocation, effective_resumes when is_paused actually flips. -/
def resume_recording (s : RecState) : RecState :=
  if s.is_paused = true then
    { s with
        is_paused := false
        show_standby_status := true
        resume_calls := s.resume_calls + 1
        effective_resumes := s.effective_resumes + 1 }
  else { s with resume_calls := s.resume_calls + 1 }

/-- AudioRecorder._ensure_recording_resumed. -/
def ensure_recording_resumed (s : RecState) : RecState :=
  if s.is_paused = true then resume_recording s else s

/-- The capture-gate effects of main.VoiceChatSystem.on_recognition_result,
whose process_ai_response thread runs the downstream pipeline.  ai_ok:
get_ai_response and the bookkeeping before the TTS block raised nothing;
tts_enabled: self.tts_enabled and self.tts; tts_ok: the TTS call raised
nothing.  When TTS raises, the inner finally block resumes first and the
except handler invokes resume_recording a second time, a no-op on the
already resumed gate. -/
def process_ai_response (s : RecState) (ai_ok tts_enabled tts_ok : Bool) : RecState :=
  if ai_ok = true then
    if tts_enabled = true then
      let s1 := resume_recording s
      if tts_ok = true then s1 else resume_recording s1
    else resume_recording s
  else resume_recording s

/-- Python truthiness test recognized_text and recognized_text.strip() that
asr_consumer_worker applies to the recognizer result. -/
def recognized_ok (recognized_text : Option String) : Bool :=
  match recognized_text with
  | none => false
  | some t => decide (¬ t = "") && decide (¬ t.trim = "")

/-- One iteration of asr_consumer_worker past its external calls: the
recognizer returned recognized_text and _save_recording_file returned
recording_file; then the failed-recognition branch (which resumes capture
only when a recording file was produced) and the recognition callback,
wired by main.VoiceChatSystem to on_recognition_result, modelled by
process_ai_response. -/
def asr_consumer_step (s : RecState) (recognized_text recording_file : Option String)
    (ai_ok tts_enabled tts_ok : Bool) : RecState :=
  let s1 := { s with stat_processed := s.stat_processed + 1 }
  let s2 :=
    match recording_file with
    | some _ =>
        if recognized_ok recognized_text = true then s1
        else
          ensure_recording_resumed
            { s1 with stat_failed_recognitions := s1.stat_failed_recognitions + 1 }
    | none => s1
  if recognized_ok recognized_text = true then
    process_ai_response s2 ai_ok tts_enabled tts_ok
  else s2

/-- The except branch of asr_consumer_worker's loop on a caught exception
with message msg: resume capture, then the fail-fast test; a message
containing memory or model (lower-cased) clears asr_consumer_active and
breaks the loop. -/
def asr_consumer_on_exception (s : RecState) (msg : String) : RecState :=
  let s1 := ensure_recording_resumed s
  if str_contains (str_lower msg) "memory" = true
      ∨ str_contains (str_lower msg) "model" = true then
    { s1 with asr_consumer_active := false }
  else s1

/-- One row of the recording cache index recording_index.json, as
_save_recording_file writes it (the contains_silence flag is the constant
true and is omitted). -/
structure FileInfo where
  filename : String
  created : Nat
  text : String
  duration : ℚ
  speech_duration : ℚ
  size : Nat
  recognition_success : Bool

/-- Configuration read by the recording-cache methods. -/
structure CacheConfig where
  save_recordings : Bool
  max_cache_files : Nat
  samplerate : ℚ
  has_speech_recognizer : Bool

/-- The recording cache: the in-memory index (a Python dict, an
insertion-ordered key-value list with unique keys) and the cache directory
contents as filename-content pairs, plus the two statistics counters
_save_recording_file updates. -/
structure CacheState where
  index : List (String × FileInfo)
  disk : List (String × List Nat)
  stat_total_recordings : Nat
  stat_successful_recognitions : Nat

/-- Python dict assignment index[k] = v: replace in place when the key
exists, append otherwise. -/
def dict_insert (k : String) (v : FileInfo) : List (String × FileInfo) → List (String × FileInfo)
  | [] => [(k, v)]
  | e :: rest => if e.1 = k then (k, v) :: rest else e :: dict_insert k v rest

/-- speech_recognizer.save_wav_file: create or overwrite the named file. -/
def disk_write (fname : String) (content : List Nat) :
    List (String × List Nat) → List (String × List Nat)
  | [] => [(fname, content)]
  | f :: rest => if f.1 = fname then (fname, content) :: rest else f :: disk_write fname content rest

/-- AudioRecorder._cleanup_recording_cache: nothing to do within the limit;
otherwise sort the index rows by their created timestamp ascending and, for
each of the oldest len - max rows, unlink its file when present and delete
its index row. -/
def cleanup_recording_cache (cfg : CacheConfig) (st : CacheState) : CacheState :=
  if st.index.length ≤ cfg.max_cache_files then st
  else
    let sorted_items := st.index.mergeSort (fun a b => decide (a.2.created ≤ b.2.created))
    let files_to_remove := st.index.length - cfg.max_cache_files
    (sorted_items.take files_to_remove).foldl
      (fun acc item =>
        { acc with
            disk := acc.disk.filter (fun f => decide (¬ f.1 = item.2.filename))
            index := acc.index.filter (fun e => decide (¬ e.1 = item.1)) })
      st

/-- AudioRecorder._save_recording_file: nothing when saving is off;
otherwise hash the audio (_get_recording_hash, hashlib.md5 hexdigest — the
parameter md5hex, a deterministic function of the bytes), name the file
rec_timestamp_hashprefix.wav, write the wav through the recognizer helper,
record the index row keyed by the hash, run the cache cleanup, and update
the statistics.  Returns the stored file name (the constant cache-directory
prefix of the source path is dropped in the model). -/
def save_recording_file (md5hex : List Nat → String) (cfg : CacheConfig) (st : CacheState)
    (audio : List Nat) (recognized_text : Option String) (now : Nat)
    (speech_dur : ℚ) : CacheState × Option String :=
  if cfg.save_recordings = false then (st, none)
  else
    let audio_hash := md5hex audio
    let filename := "rec_" ++ toString now ++ "_" ++ String.mk (audio_hash.data.take 8) ++ ".wav"
    let disk1 :=
      if cfg.has_speech_recognizer = true then disk_write filename audio st.disk else st.disk
    let actual_duration : ℚ := (audio.length : ℚ) / (cfg.samplerate * 2)
    let info : FileInfo :=
      { filename := filename
        created := now
        text := recognized_text.getD "未识别"
        duration := actual_duration
        speech_duration := speech_dur
        size := audio.length
        recognition_success := recognized_text.isSome }
    let st1 := cleanup_recording_cache cfg
      { st with
          index := dict_insert audio_hash info st.index
          disk := disk1 }
    ({ st1 with
        stat_total_recordings := st1.stat_total_recordings + 1
        stat_successful_recognitions := st1.stat_successful_recognitions +
          (if recognized_text.getD "" = "" then 0 else 1) },
      some filename)

/-- The startup guard in AudioRecorder.__init__: clean the loaded index
when a prior run left more entries than the current limit. -/
def startup_cleanup (cfg : CacheConfig) (st : CacheState) : CacheState :=
  if cfg.max_cache_files < st.index.length then cleanup_recording_cache cfg st else st

/-- Arguments of one _save_recording_file call. -/
structure PutArgs where
  audio : List Nat
  recognized_text : Option String
  now : Nat
  speech_dur : ℚ

/-- A sequence of _save_recording_file calls. -/
def apply_puts (md5hex : List Nat → String) (cfg : CacheConfig) :
    CacheState → List PutArgs → CacheState
  | st, [] => st
  | st, p :: rest =>
      apply_puts md5hex cfg
        (save_recording_file md5hex cfg st p.audio p.recognized_text p.now p.speech_dur).1 rest

/-- One result row of find_recording_by_text. -/
structure SearchResult where
  hash : String
  file_path : String
  text : String
  created : Nat
  duration : ℚ

/-- AudioRecorder.find_recording_by_text: scan the index in order; keep
the rows whose recorded text contains the query case-insensitively and
whose wav file still exists, as result records. -/
def find_recording_by_text (st : CacheState) (text : String) : List SearchResult :=
  st.index.filterMap fun e =>
    if str_contains (str_lower e.2.text) (str_lower text) = true then
      if st.disk.any (fun f => decide (f.1 = e.2.filename)) = true then
        some { hash := e.1
               file_path := e.2.filename
               text := e.2.text
               created := e.2.created
               duration := e.2.duration }
      else none
    else none

/-- A concrete configuration with the source defaults: 16 kHz, 1.5 s
silence timeout, 0.5 s minimum speech, queue capacity 20, confirmation
threshold 2. -/
def wit_cfg : Config := ⟨16000, 3/2, 1/2, 20, 2⟩

/-- A concrete speech-positive window: one stereo frame, oracle true,
amplitude 1. -/
def wit_w : Window := ⟨[1, 2, 3, 4], true, 1⟩

/-- A concrete non-speech window: one stereo frame, oracle false,
amplitude 0. -/
def wit_w2 : Window := ⟨[0, 0, 0, 0], false, 0⟩

/-- A concrete mid-utterance state: recording, one buffered window, 0.3 s
of credited speech. -/
def wit_rec_state : RecState :=
  { init_state 0 with
      is_recording_speech := true
      speech_segments := [[1, 2, 3, 4]]
      actual_speech_duration := 3/10 }

/-- A concrete paused state, as left by a finalised utterance. -/
def wit_paused_state : RecState := { init_state 0 with is_paused := true }

/-- Configuration with dispatch-queue capacity 1 for the full-queue
scenarios. -/
def c6_cfg : Config := ⟨16000, 3/2, 1/2, 1, 2⟩

/-- A state whose capacity-1 dispatch queue is already full and which
holds a pending utterance. -/
def c6_state : RecState :=
  { init_state 0 with
      speech_segments := [[1, 2, 3, 4]]
      asr_queue := [⟨[], 0, 0⟩] }

/-- A recording state with 0.6 s of credited speech whose capacity-1
dispatch queue is already full. -/
def c2_state : RecState :=
  { init_state 0 with
      is_recording_speech := true
      speech_segments := [[1, 2, 3, 4]]
      actual_speech_duration := 3/5
      asr_queue := [⟨[], 0, 0⟩] }

/-- The worker state the fatal exception handler leaves behind when capture
was paused: resumed once, consumer stopped, enable_asr untouched. -/
def c7_after : RecState :=
  { init_state 0 with
      resume_calls := 1
      effective_resumes := 1
      asr_consumer_active := false }

/-- Intermediate states of the post-fatal-error utterance: one confirmation
window seen. -/
def c7_s1 : RecState := { c7_after with consecutive_speech_count := 1 }

/-- Second speech window: recording starts. -/
def c7_s2 : RecState :=
  { c7_s1 with
      consecutive_speech_count := 2
      is_recording_speech := true
      speech_segments := [wit_w.bytes]
      actual_speech_duration := 3/10
      last_active_time := 2
      show_standby_status := false }

/-- Third speech window: 0.6 s of credited speech. -/
def c7_s3 : RecState :=
  { c7_s2 with
      consecutive_speech_count := 3
      speech_segments := [wit_w.bytes, wit_w.bytes]
      actual_speech_duration := 3/5
      last_active_time := 3 }

/-- A stopped-consumer state holding a pending utterance, for the amended
C7 enqueue witness. -/
def c7_pending : RecState :=
  { init_state 0 with
      asr_consumer_active := false
      speech_segments := [[1, 2, 3, 4]] }


/-- A constant stand-in hash oracle for concrete cache runs; any
deterministic function models hashlib.md5 hexdigest here, and only the
8-character prefix enters the filename. -/
def c3_md5 : List Nat → String := fun _ => "0123456789abcdef0123456789abcdef"

/-- Concrete cache configuration: saving on, limit 5, recognizer loaded. -/
def c3_cfg : CacheConfig := ⟨true, 5, 16000, true⟩

/-- Concrete audio bytes put into the cache twice. -/
def c3_audio : List Nat := [1, 2, 3, 4]

/-- The empty cache. -/
def c3_empty : CacheState := ⟨[], [], 0, 0⟩


/-- A well-formed detection window: whole stereo frames covering at least
the 0.3 s drain threshold of audio_callback (the buffer is only handed to
process_audio_buffer once it holds at least 0.3 s of blocks, so its mono
projection carries at least 0.3 s worth of int16 bytes, 2 bytes per sample
at the configured rate). -/
def good_window (cfg : Config) (w : Window) : Prop :=
  w.bytes.length % 4 = 0
  ∧ (3/10 : ℚ) * (2 * cfg.samplerate) ≤ ((stereo_to_mono w.bytes).length : ℚ)

/-- Invariant carried by the segmentation state: credited speech time is at
most 0.3 s per buffered window, every buffered window is well formed, and
every queued item already satisfies speech duration at most total
duration. -/
def seg_invariant (cfg : Config) (s : RecState) : Prop :=
  s.actual_speech_duration ≤ (3/10 : ℚ) * s.speech_segments.length
  ∧ (∀ b ∈ s.speech_segments, b.length % 4 = 0
      ∧ (3/10 : ℚ) * (2 * cfg.samplerate) ≤ ((stereo_to_mono b).length : ℚ))
  ∧ (∀ it ∈ s.asr_queue, it.actual_speech_duration ≤ it.audio_length)

/-- A small-rate configuration for the C9 witness: 10 samples per second,
so a well-formed window needs only 12 stereo bytes. -/
def c9_cfg : Config := ⟨10, 3/2, 1/2, 20, 2⟩

/-- A 12-byte speech window, exactly the 0.3 s drain threshold at rate
10. -/
def c9_w : Window := ⟨[0, 0, 0, 0, 0, 0, 0, 0, 0, 0, 0, 0], true, 1⟩


/-- Two-row index left by a prior run, over the 1-row limit, for the C5
witness. -/
def c5_cfg : CacheConfig := ⟨true, 1, 16000, true⟩

/-- The loaded two-row index: distinct hash keys, created 5 and 9. -/
def c5_loaded : CacheState :=
  ⟨[("aaaa", ⟨"rec_5_aaaa.wav", 5, "old", 0, 0, 4, true⟩),
    ("bbbb", ⟨"rec_9_bbbb.wav", 9, "new", 0, 0, 4, true⟩)],
   [("rec_5_aaaa.wav", [1]), ("rec_9_bbbb.wav", [2])], 0, 0⟩


section Helpers

/-- The end-of-recording check never touches the consecutive counter. -/
theorem end_check_count (cfg : Config) (s : RecState) (now : ℚ) :
    (end_of_recording_check cfg s now).consecutive_speech_count
      = s.consecutive_speech_count := by
  simp only [end_of_recording_check, process_speech_segments,
    apply_ite (RecState.consecutive_speech_count)]
  repeat' split
  all_goals simp

/-- The end-of-recording check is a no-op off the recording state. -/
theorem end_check_of_not_recording (cfg : Config) (s : RecState) (now : ℚ)
    (h : s.is_recording_speech = false) : end_of_recording_check cfg s now = s := by
  unfold end_of_recording_check
  simp [h]

/-- The end-of-recording check is a no-op while the silence timeout has not
elapsed. -/
theorem end_check_of_active (cfg : Config) (s : RecState) (now : ℚ)
    (h : ¬ cfg.silence_timeout < now - s.last_active_time) :
    end_of_recording_check cfg s now = s := by
  unfold end_of_recording_check
  simp [h]

/-- When the end-of-recording check yields a recording state, it did not
fire, so the state was already recording. -/
theorem end_check_recording_of (cfg : Config) (s : RecState) (now : ℚ)
    (h : (end_of_recording_check cfg s now).is_recording_speech = true) :
    s.is_recording_speech = true := by
  by_contra hc
  rw [end_check_of_not_recording cfg s now (by simpa using hc)] at h
  exact hc h

end Helpers

/-- Claim C4: utterance recording begins only after the confirmation
hysteresis.  From an unpaused state, (i) a window can switch
is_recording_speech on only when it is itself speech-positive (oracle true
and amplitude above the threshold) and brings the consecutive count up to
speech_confirmation_threshold; (ii) every non-speech window resets the
consecutive counter to zero; and (iii) with the source threshold of 2, an
idle state with a zero counter never starts an utterance on a single
isolated positive window followed by a non-speech window: no recording
starts, nothing is buffered, nothing is enqueued. -/
theorem claim_C4_hysteresis (cfg : Config) (s : RecState) (w : Window) (now : ℚ)
    (hp : s.is_paused = false) :
    (s.is_recording_speech = false →
      (process_audio_buffer cfg s w now).is_recording_speech = true →
      is_speech_candidate w
        ∧ cfg.speech_confirmation_threshold ≤ s.consecutive_speech_count + 1)
    ∧ (¬ is_speech_candidate w →
      (process_audio_buffer cfg s w now).consecutive_speech_count = 0)
    ∧ (∀ w2 : Window, ∀ t2 : ℚ,
      cfg.speech_confirmation_threshold = 2 →
      s.is_recording_speech = false → s.consecutive_speech_count = 0 →
      is_speech_candidate w → ¬ is_speech_candidate w2 →
      ((process_audio_buffer cfg (process_audio_buffer cfg s w now) w2 t2).is_recording_speech
          = false
        ∧ (process_audio_buffer cfg (process_audio_buffer cfg s w now) w2 t2).consecutive_speech_count
          = 0
        ∧ (process_audio_buffer cfg (process_audio_buffer cfg s w now) w2 t2).speech_segments
          = s.speech_segments
        ∧ (process_audio_buffer cfg (process_audio_buffer cfg s w now) w2 t2).asr_queue
          = s.asr_queue)) := by
  refine ⟨?_, ?_, ?_⟩
  · intro hrec hres
    by_cases hc : is_speech_candidate w
    · refine ⟨hc, ?_⟩
      unfold process_audio_buffer at hres
      simp only [hp, hc, if_false, if_true, Bool.false_eq_true, ite_true, ite_false] at hres
      by_cases hth : s.consecutive_speech_count + 1 < cfg.speech_confirmation_threshold
      · simp [hrec, hth] at hres
      · omega
    · unfold process_audio_buffer at hres
      simp only [hp, hc, Bool.false_eq_true, if_false, ite_false] at hres
      have h2 := end_check_recording_of _ _ _ hres
      simp [hrec] at h2
  · intro hc
    unfold process_audio_buffer
    simp only [hp, hc, Bool.false_eq_true, if_false, ite_false]
    rw [end_check_count]
  · intro w2 t2 hth hrec hcount hc hc2
    have h1 : process_audio_buffer cfg s w now
        = { s with consecutive_speech_count := 1 } := by
      unfold process_audio_buffer
      simp [hp, hc, hrec, hcount, hth]
    rw [h1]
    unfold process_audio_buffer
    simp only [hp, hc2, hrec, Bool.false_eq_true, if_false, ite_false]
    rw [end_check_of_not_recording _ _ _ (by simp)]
    simp

/-- Claim C8 (silence retention): while an utterance is being recorded and
the silence timeout has not elapsed, a non-speech window is still appended
to the utterance segment list — the recorded byte stream grows by its
bytes — while actual_speech_duration is unchanged; a speech-positive
window appends its bytes and adds 0.3 s of speech credit.  The
nonnegative-timeout hypothesis reflects the design default of 1.5 s. -/
theorem claim_C8_silence_retention (cfg : Config) (s : RecState) (w : Window) (now : ℚ)
    (hp : s.is_paused = false) (hr : s.is_recording_speech = true)
    (htime : ¬ cfg.silence_timeout < now - s.last_active_time)
    (htimeout : 0 ≤ cfg.silence_timeout) :
    (¬ is_speech_candidate w →
      (process_audio_buffer cfg s w now).speech_segments = s.speech_segments ++ [w.bytes]
      ∧ (process_audio_buffer cfg s w now).actual_speech_duration = s.actual_speech_duration
      ∧ (process_audio_buffer cfg s w now).speech_segments.flatten.length
          = s.speech_segments.flatten.length + w.bytes.length)
    ∧ (is_speech_candidate w →
      (process_audio_buffer cfg s w now).speech_segments = s.speech_segments ++ [w.bytes]
      ∧ (process_audio_buffer cfg s w now).actual_speech_duration
          = s.actual_speech_duration + 3/10) := by
  constructor
  · intro hc
    unfold process_audio_buffer
    simp only [hp, hc, Bool.false_eq_true, if_false, ite_false]
    rw [end_check_of_active _ _ _ (by simpa [hr] using htime)]
    simp [hr]
  · intro hc
    unfold process_audio_buffer
    simp only [hp, hc, hr, Bool.true_eq_false, if_true, ite_true, if_false, ite_false]
    rw [end_check_of_active _ _ _ (by simp; linarith)]
    simp [hr]

/-- Claim C6: with ASR on, a recognizer loaded and a pending utterance, an
enqueue against a dispatch queue at its (positive) capacity leaves the
queue unchanged, increments the dropped counter by one, leaves the queued
counter unchanged and still clears the segment list; the model is the
put_nowait call, which raises queue.Full instead of blocking. -/
theorem claim_C6_full_queue_drops (cfg : Config) (s : RecState)
    (hseg : ¬ s.speech_segments = []) (hproc : s.is_processing = false)
    (hasr : s.enable_asr = true) (hrec : s.has_speech_recognizer = true)
    (hpos : 0 < cfg.asr_queue_size) (hfull : cfg.asr_queue_size ≤ s.asr_queue.length) :
    (process_speech_segments cfg s).asr_queue = s.asr_queue
    ∧ (process_speech_segments cfg s).stat_dropped = s.stat_dropped + 1
    ∧ (process_speech_segments cfg s).stat_queued = s.stat_queued
    ∧ (process_speech_segments cfg s).speech_segments = [] := by
  unfold process_speech_segments
  simp [hseg, hproc, hasr, hrec, hpos, hfull]

/-- Claim C1 (gate invariant): once an utterance has reached finalisation
(capture paused) and its recording file was produced, every terminal path
of the downstream pipeline — recognition success with TTS success,
recognition success with TTS failure, response-generation failure, and
recognition failure — performs the paused-to-unpaused transition exactly
once and leaves capture unpaused.  Resume is the guarded resume_recording,
a no-op once capture is already resumed. -/
theorem claim_C1_resume_exactly_once (s : RecState) (recognized_text : Option String)
    (f : String) (ai_ok tts_enabled tts_ok : Bool) (hp : s.is_paused = true) :
    (asr_consumer_step s recognized_text (some f) ai_ok tts_enabled tts_ok).effective_resumes
      = s.effective_resumes + 1
    ∧ (asr_consumer_step s recognized_text (some f) ai_ok tts_enabled tts_ok).is_paused
      = false := by
  cases hok : recognized_ok recognized_text <;>
    cases ai_ok <;> cases tts_enabled <;> cases tts_ok <;>
      simp [asr_consumer_step, hok, process_ai_response, ensure_recording_resumed,
        resume_recording, hp]

/-- Helper: a filterMap whose function is filter-then-map shaped. -/
theorem filterMap_eq_map_filter_aux {α β : Type} (p : α → Bool) (g : α → β)
    (f : α → Option β) (hf : ∀ a, f a = if p a then some (g a) else none) (l : List α) :
    l.filterMap f = (l.filter p).map g := by
  induction l with
  | nil => simp
  | cons a t ih =>
    by_cases hpa : p a <;>
      simp [List.filterMap_cons, List.filter_cons, hf, hpa, ih]

/-- Claim C10: find_recording_by_text returns exactly the index rows whose
recorded text contains the query as a case-insensitive substring and whose
wav file currently exists on disk, in index order, as result records; a
matching row whose file is missing is silently omitted. -/
theorem claim_C10_find_by_text (st : CacheState) (q : String) :
    find_recording_by_text st q
      = (st.index.filter (fun e =>
            str_contains (str_lower e.2.text) (str_lower q)
            && st.disk.any (fun f => decide (f.1 = e.2.filename)))).map
          (fun e => ⟨e.1, e.2.filename, e.2.text, e.2.created, e.2.duration⟩) := by
  unfold find_recording_by_text
  apply filterMap_eq_map_filter_aux
  intro e
  by_cases h1 : str_contains (str_lower e.2.text) (str_lower q) = true <;>
    by_cases h2 : st.disk.any (fun f => decide (f.1 = e.2.filename)) = true <;>
      simp [h1, h2]

/-- Witness for claim C4: the source-default configuration, the freshly
initialised idle recorder, a single speech window at time 1 followed by a
non-speech window at time 2: no recording starts, nothing is buffered or
enqueued. -/
theorem claim_C4_hysteresis_witness :
    (init_state 0).is_paused = false
    ∧ ((process_audio_buffer wit_cfg (process_audio_buffer wit_cfg (init_state 0) wit_w 1) wit_w2 2).is_recording_speech
        = false
      ∧ (process_audio_buffer wit_cfg (process_audio_buffer wit_cfg (init_state 0) wit_w 1) wit_w2 2).consecutive_speech_count
        = 0
      ∧ (process_audio_buffer wit_cfg (process_audio_buffer wit_cfg (init_state 0) wit_w 1) wit_w2 2).speech_segments
        = (init_state 0).speech_segments
      ∧ (process_audio_buffer wit_cfg (process_audio_buffer wit_cfg (init_state 0) wit_w 1) wit_w2 2).asr_queue
        = (init_state 0).asr_queue) :=
  ⟨rfl,
    (claim_C4_hysteresis wit_cfg (init_state 0) wit_w 1 rfl).2.2 wit_w2 2 rfl rfl rfl
      (by exact ⟨rfl, by norm_num [wit_w, amplitude_threshold]⟩)
      (by norm_num [is_speech_candidate, wit_w2, amplitude_threshold])⟩

/-- Witness for claim C8: the concrete mid-utterance state receives a
non-speech window at time 1, within the silence timeout: the window is
appended, the byte stream grows, the credited speech duration is
unchanged. -/
theorem claim_C8_silence_retention_witness :
    wit_rec_state.is_recording_speech = true
    ∧ ((process_audio_buffer wit_cfg wit_rec_state wit_w2 1).speech_segments
        = wit_rec_state.speech_segments ++ [wit_w2.bytes]
      ∧ (process_audio_buffer wit_cfg wit_rec_state wit_w2 1).actual_speech_duration
        = wit_rec_state.actual_speech_duration
      ∧ (process_audio_buffer wit_cfg wit_rec_state wit_w2 1).speech_segments.flatten.length
        = wit_rec_state.speech_segments.flatten.length + wit_w2.bytes.length) :=
  ⟨rfl,
    (claim_C8_silence_retention wit_cfg wit_rec_state wit_w2 1 rfl rfl
        (by norm_num [wit_cfg, wit_rec_state, init_state])
        (by norm_num [wit_cfg])).1
      (by norm_num [is_speech_candidate, wit_w2, amplitude_threshold])⟩

/-- Witness for claim C6: a capacity-1 queue already holding one item
drops the pending utterance and counts it. -/
theorem claim_C6_full_queue_drops_witness :
    c6_cfg.asr_queue_size ≤ c6_state.asr_queue.length
    ∧ ((process_speech_segments c6_cfg c6_state).asr_queue = c6_state.asr_queue
      ∧ (process_speech_segments c6_cfg c6_state).stat_dropped = c6_state.stat_dropped + 1
      ∧ (process_speech_segments c6_cfg c6_state).stat_queued = c6_state.stat_queued
      ∧ (process_speech_segments c6_cfg c6_state).speech_segments = []) :=
  ⟨by decide,
    claim_C6_full_queue_drops c6_cfg c6_state (by decide) rfl rfl rfl (by decide) (by decide)⟩

/-- Witness for claim C1: a paused recorder, a successful recognition and
a failing TTS call: the gate still ends resumed with exactly one effective
resume. -/
theorem claim_C1_resume_exactly_once_witness :
    wit_paused_state.is_paused = true
    ∧ ((asr_consumer_step wit_paused_state (some "hi") (some "rec_1_x.wav") true true false).effective_resumes
        = wit_paused_state.effective_resumes + 1
      ∧ (asr_consumer_step wit_paused_state (some "hi") (some "rec_1_x.wav") true true false).is_paused
        = false) :=
  ⟨rfl, claim_C1_resume_exactly_once wit_paused_state (some "hi") "rec_1_x.wav" true true false rfl⟩

/-- Counterexample to claim C2 as stated: a finalising utterance with
0.6 s of credited speech (above the 0.5 s minimum) meets a full dispatch
queue; capture pauses and the utterance is dropped — the queue is
unchanged and the dropped counter incremented — so an utterance at or
above min_speech_duration does not always reach the dispatch queue. -/
theorem claim_C2_cex :
    (process_audio_buffer c6_cfg c2_state wit_w2 10).is_paused = true
    ∧ (process_audio_buffer c6_cfg c2_state wit_w2 10).is_recording_speech = false
    ∧ (process_audio_buffer c6_cfg c2_state wit_w2 10).asr_queue = c2_state.asr_queue
    ∧ (process_audio_buffer c6_cfg c2_state wit_w2 10).stat_dropped
        = c2_state.stat_dropped + 1 := by
  norm_num [process_audio_buffer, end_of_recording_check, process_speech_segments,
    is_speech_candidate, amplitude_threshold, c6_cfg, c2_state, wit_w2, init_state,
    apply_ite RecState.is_paused, apply_ite RecState.is_recording_speech,
    apply_ite RecState.asr_queue, apply_ite RecState.stat_dropped,
    apply_ite RecState.consecutive_speech_count, apply_ite RecState.speech_segments,
    apply_ite RecState.actual_speech_duration, apply_ite RecState.show_standby_status] <;>
    decide

/-- Claim C2 amended: at end-of-utterance (silence timeout elapsed on a
non-speech window with no finalisation in flight), an utterance with
credited speech below min_speech_duration is discarded — counted short,
segments cleared, nothing enqueued, capture left unpaused; one with
credited speech at least min_speech_duration is enqueued provided ASR is
enabled with a loaded recognizer and the bounded queue is below its
positive capacity, and is dropped (with the dropped counter incremented)
when the queue is full.  The unqualified original — such an utterance
always reaches the queue — fails on a full queue. -/
theorem claim_C2_min_duration_filter (cfg : Config) (s : RecState) (w : Window) (now : ℚ)
    (hp : s.is_paused = false) (hr : s.is_recording_speech = true)
    (hc : ¬ is_speech_candidate w)
    (ht : cfg.silence_timeout < now - s.last_active_time)
    (hproc : s.is_processing = false) :
    (s.actual_speech_duration < cfg.min_speech_duration →
      (process_audio_buffer cfg s w now).asr_queue = s.asr_queue
      ∧ (process_audio_buffer cfg s w now).stat_queued = s.stat_queued
      ∧ (process_audio_buffer cfg s w now).stat_dropped = s.stat_dropped
      ∧ (process_audio_buffer cfg s w now).stat_short_recordings = s.stat_short_recordings + 1
      ∧ (process_audio_buffer cfg s w now).speech_segments = []
      ∧ (process_audio_buffer cfg s w now).is_paused = false
      ∧ (process_audio_buffer cfg s w now).is_recording_speech = false)
    ∧ (cfg.min_speech_duration ≤ s.actual_speech_duration →
        s.enable_asr = true → s.has_speech_recognizer = true →
        ¬ (0 < cfg.asr_queue_size ∧ cfg.asr_queue_size ≤ s.asr_queue.length) →
        (process_audio_buffer cfg s w now).asr_queue
          = s.asr_queue ++ [⟨stereo_to_mono (s.speech_segments ++ [w.bytes]).flatten,
              ((stereo_to_mono (s.speech_segments ++ [w.bytes]).flatten).length : ℚ)
                / (cfg.samplerate * 2),
              s.actual_speech_duration⟩]
        ∧ (process_audio_buffer cfg s w now).is_paused = true)
    ∧ (cfg.min_speech_duration ≤ s.actual_speech_duration →
        s.enable_asr = true → s.has_speech_recognizer = true →
        0 < cfg.asr_queue_size → cfg.asr_queue_size ≤ s.asr_queue.length →
        (process_audio_buffer cfg s w now).asr_queue = s.asr_queue
        ∧ (process_audio_buffer cfg s w now).stat_dropped = s.stat_dropped + 1) := by
  refine ⟨?_, ?_, ?_⟩
  · intro hdur
    have hnotle : ¬ cfg.min_speech_duration ≤ s.actual_speech_duration := not_le.mpr hdur
    unfold process_audio_buffer end_of_recording_check
    simp [hp, hr, hc, ht, hproc, hnotle]
  · intro hle hasr hrecz hnf
    unfold process_audio_buffer end_of_recording_check process_speech_segments
    simp [hp, hr, hc, ht, hproc, hle, hasr, hrecz, hnf]
  · intro hle hasr hrecz hpos hfull
    unfold process_audio_buffer end_of_recording_check process_speech_segments
    simp [hp, hr, hc, ht, hproc, hle, hasr, hrecz, hpos, hfull]

/-- Witness for the amended claim C2: the concrete mid-utterance state,
whose 0.6 s of credited speech is above the minimum, finalises at time 10
into the roomy default queue and is enqueued, pausing capture. -/
theorem claim_C2_min_duration_filter_witness :
    wit_rec_state.is_recording_speech = true
    ∧ ((process_audio_buffer wit_cfg
          { wit_rec_state with actual_speech_duration := 3/5 } wit_w2 10).asr_queue
        = { wit_rec_state with actual_speech_duration := 3/5 }.asr_queue
          ++ [⟨stereo_to_mono ({ wit_rec_state with actual_speech_duration := 3/5 }.speech_segments
                ++ [wit_w2.bytes]).flatten,
              ((stereo_to_mono ({ wit_rec_state with actual_speech_duration := 3/5 }.speech_segments
                ++ [wit_w2.bytes]).flatten).length : ℚ) / (wit_cfg.samplerate * 2),
              { wit_rec_state with actual_speech_duration := 3/5 }.actual_speech_duration⟩]
      ∧ (process_audio_buffer wit_cfg
          { wit_rec_state with actual_speech_duration := 3/5 } wit_w2 10).is_paused = true) :=
  ⟨rfl,
    (claim_C2_min_duration_filter wit_cfg { wit_rec_state with actual_speech_duration := 3/5 }
        wit_w2 10 rfl rfl
        (by norm_num [is_speech_candidate, wit_w2, amplitude_threshold])
        (by norm_num [wit_cfg, wit_rec_state, init_state])
        rfl).2.1
      (by norm_num [wit_rec_state, wit_cfg, init_state]) rfl rfl
      (by norm_num [wit_cfg, wit_rec_state, init_state])⟩

/-- Counterexample to claim C7 as stated: after the worker handles a
fatal out-of-memory exception (consumer stopped), a subsequently captured
and finalised utterance — two confirmation windows, a third speech window,
then silence past the timeout — is still enqueued on the dispatch queue
rather than discarded, and enable_asr is still true. -/
theorem claim_C7_cex :
    (run_windows wit_cfg (asr_consumer_on_exception wit_paused_state "CUDA out of memory")
        [(wit_w, 1), (wit_w, 2), (wit_w, 3), (wit_w2, 10)]).asr_queue.length = 1
    ∧ (run_windows wit_cfg (asr_consumer_on_exception wit_paused_state "CUDA out of memory")
        [(wit_w, 1), (wit_w, 2), (wit_w, 3), (wit_w2, 10)]).asr_consumer_active = false
    ∧ (run_windows wit_cfg (asr_consumer_on_exception wit_paused_state "CUDA out of memory")
        [(wit_w, 1), (wit_w, 2), (wit_w, 3), (wit_w2, 10)]).enable_asr = true := by
  have h0 : asr_consumer_on_exception wit_paused_state "CUDA out of memory" = c7_after := rfl
  have h1 : process_audio_buffer wit_cfg c7_after wit_w 1 = c7_s1 := by
    unfold process_audio_buffer
    norm_num [is_speech_candidate, amplitude_threshold, wit_w, wit_cfg, c7_after, c7_s1,
      init_state]
  have h2 : process_audio_buffer wit_cfg c7_s1 wit_w 2 = c7_s2 := by
    unfold process_audio_buffer end_of_recording_check
    norm_num [is_speech_candidate, amplitude_threshold, wit_w, wit_cfg, c7_after, c7_s1,
      c7_s2, init_state]
  have h3 : process_audio_buffer wit_cfg c7_s2 wit_w 3 = c7_s3 := by
    unfold process_audio_buffer end_of_recording_check
    norm_num [is_speech_candidate, amplitude_threshold, wit_w, wit_cfg, c7_after, c7_s1,
      c7_s2, c7_s3, init_state]
  simp only [run_windows, h0, h1, h2, h3]
  unfold process_audio_buffer end_of_recording_check process_speech_segments
  norm_num [is_speech_candidate, amplitude_threshold, wit_w2, wit_cfg, c7_after, c7_s1,
    c7_s2, c7_s3, init_state, wit_w,
    apply_ite RecState.is_paused, apply_ite RecState.asr_queue,
    apply_ite RecState.asr_consumer_active, apply_ite RecState.enable_asr] <;>
    decide

/-- Claim C7 amended: an exception whose lower-cased message contains
memory or model stops the worker — asr_consumer_active is cleared, the
loop breaks — but enable_asr is untouched (ASR is not marked disabled),
and a subsequently finalised utterance is still enqueued whenever the
dispatch queue has room; it is only dropped once the queue fills, not
discarded for lack of a consumer. -/
theorem claim_C7_fatal_error (s : RecState) (msg : String)
    (hmsg : str_contains (str_lower msg) "memory" = true
      ∨ str_contains (str_lower msg) "model" = true) :
    ((asr_consumer_on_exception s msg).asr_consumer_active = false
      ∧ (asr_consumer_on_exception s msg).enable_asr = s.enable_asr)
    ∧ (∀ s2 : RecState, ∀ cfg : Config,
        s2.asr_consumer_active = false → s2.enable_asr = true →
        s2.has_speech_recognizer = true → ¬ s2.speech_segments = [] →
        s2.is_processing = false →
        ¬ (0 < cfg.asr_queue_size ∧ cfg.asr_queue_size ≤ s2.asr_queue.length) →
        (process_speech_segments cfg s2).asr_queue.length = s2.asr_queue.length + 1) := by
  constructor
  · unfold asr_consumer_on_exception ensure_recording_resumed resume_recording
    rcases hmsg with hm | hm <;>
      by_cases hpz : s.is_paused = true <;> simp [hm, hpz]
  · intro s2 cfg hact hasr hrecz hseg hproc hnf
    unfold process_speech_segments
    simp [hact, hasr, hrecz, hseg, hproc, hnf]

/-- Witness for the amended claim C7: the concrete fatal message and the
stopped-consumer state with a pending utterance: the consumer flag is
cleared, enable_asr is untouched, and the pending utterance is still
enqueued on the empty default queue. -/
theorem claim_C7_fatal_error_witness :
    ((asr_consumer_on_exception wit_paused_state "CUDA out of memory").asr_consumer_active
        = false
      ∧ (asr_consumer_on_exception wit_paused_state "CUDA out of memory").enable_asr
        = wit_paused_state.enable_asr)
    ∧ (process_speech_segments wit_cfg c7_pending).asr_queue.length
        = c7_pending.asr_queue.length + 1 :=
  ⟨(claim_C7_fatal_error wit_paused_state "CUDA out of memory" (Or.inl rfl)).1,
    (claim_C7_fatal_error wit_paused_state "CUDA out of memory" (Or.inl rfl)).2
      c7_pending wit_cfg rfl rfl rfl (by decide) rfl (by decide)⟩

section CacheHelpers

/-- Inserting into the index adds at most one row. -/
theorem dict_insert_length_le (k : String) (v : FileInfo) (l : List (String × FileInfo)) :
    (dict_insert k v l).length ≤ l.length + 1 := by
  induction l with
  | nil => simp [dict_insert]
  | cons e rest ih =>
    by_cases he : e.1 = k <;> simp [dict_insert, he] <;> omega

/-- The inserted key is present afterwards. -/
theorem dict_insert_mem (k : String) (v : FileInfo) (l : List (String × FileInfo)) :
    k ∈ (dict_insert k v l).map Prod.fst := by
  induction l with
  | nil => simp [dict_insert]
  | cons e rest ih =>
    by_cases he : e.1 = k
    · simp [dict_insert, he]
    · simpa [dict_insert, he] using Or.inr ih

/-- Inserting an already-present key keeps the length. -/
theorem dict_insert_length_mem (k : String) (v : FileInfo) (l : List (String × FileInfo))
    (h : k ∈ l.map Prod.fst) : (dict_insert k v l).length = l.length := by
  induction l with
  | nil => simp at h
  | cons e rest ih =>
    by_cases he : e.1 = k
    · simp [dict_insert, he]
    · rw [List.map_cons] at h
      have h2 : k ∈ rest.map Prod.fst := by
        rcases List.mem_cons.mp h with h3 | h3
        · exact absurd h3.symm he
        · exact h3
      simp [dict_insert, he, ih h2]

/-- The key list after an insertion: unchanged for a present key, the key
appended otherwise. -/
theorem dict_insert_keys (k : String) (v : FileInfo) (l : List (String × FileInfo)) :
    (dict_insert k v l).map Prod.fst
      = if k ∈ l.map Prod.fst then l.map Prod.fst else l.map Prod.fst ++ [k] := by
  induction l with
  | nil => simp [dict_insert]
  | cons e rest ih =>
    by_cases he : e.1 = k
    · simp [dict_insert, he]
    · have hek : ¬ k = e.1 := fun hh => he hh.symm
      by_cases hm : k ∈ rest.map Prod.fst <;>
        simp [dict_insert, he, hek, hm, ih]

/-- Insertion preserves key distinctness. -/
theorem dict_insert_nodup (k : String) (v : FileInfo) (l : List (String × FileInfo))
    (h : (l.map Prod.fst).Nodup) : ((dict_insert k v l).map Prod.fst).Nodup := by
  rw [dict_insert_keys]
  by_cases hm : k ∈ l.map Prod.fst
  · simpa [hm] using h
  · simp only [hm, if_false, ite_false]
    rw [List.nodup_append]
    exact ⟨h, List.nodup_singleton k, by simpa using hm⟩

/-- With no occurrence of the key, filtering for it yields nothing. -/
theorem filter_key_eq_nil (k : String) (l : List (String × FileInfo))
    (h : ¬ k ∈ l.map Prod.fst) :
    l.filter (fun e => decide (e.1 = k)) = [] := by
  induction l with
  | nil => rfl
  | cons e rest ih =>
    have hek : ¬ e.1 = k := by
      intro hh
      exact h (by simp [hh])
    have h2 : ¬ k ∈ rest.map Prod.fst := by
      intro hh
      exact h (by simp [hh])
    simp [List.filter_cons, hek, ih h2]

/-- After inserting into a distinct-key index, exactly one row carries the
inserted key. -/
theorem dict_insert_filter_key (k : String) (v : FileInfo) (l : List (String × FileInfo))
    (h : (l.map Prod.fst).Nodup) :
    ((dict_insert k v l).filter (fun e => decide (e.1 = k))).length = 1 := by
  induction l with
  | nil => simp [dict_insert]
  | cons e rest ih =>
    rw [List.map_cons, List.nodup_cons] at h
    obtain ⟨hnm, h1⟩ := h
    by_cases he : e.1 = k
    · have hk : ¬ k ∈ rest.map Prod.fst := he ▸ hnm
      simp [dict_insert, he, List.filter_cons, filter_key_eq_nil k rest hk]
    · simp [dict_insert, he, List.filter_cons, ih h1]

/-- Rewriting the same content to the same file twice changes nothing. -/
theorem disk_write_idem (f : String) (c : List Nat) (d : List (String × List Nat)) :
    disk_write f c (disk_write f c d) = disk_write f c d := by
  induction d with
  | nil => simp [disk_write]
  | cons e rest ih =>
    by_cases he : e.1 = f
    · simp [disk_write, he]
    · simp [disk_write, he, ih]

/-- The cache cleanup is the identity within the limit. -/
theorem cleanup_of_le (cfg : CacheConfig) (st : CacheState)
    (h : st.index.length ≤ cfg.max_cache_files) : cleanup_recording_cache cfg st = st := by
  unfold cleanup_recording_cache
  simp [h]

/-- Within the cache limit, _save_recording_file is the pure
insert-and-write step: the wav is written, the index row inserted under the
content hash, the statistics bumped, and the file name returned. -/
theorem save_recording_file_of_room (md5hex : List Nat → String) (cfg : CacheConfig)
    (st : CacheState) (audio : List Nat) (txt : Option String) (t : Nat) (d : ℚ)
    (hsave : cfg.save_recordings = true)
    (hroom : ∀ v : FileInfo, (dict_insert (md5hex audio) v st.index).length
      ≤ cfg.max_cache_files) :
    save_recording_file md5hex cfg st audio txt t d
      = ({ index := dict_insert (md5hex audio)
              ⟨"rec_" ++ toString t ++ "_" ++ String.mk ((md5hex audio).data.take 8) ++ ".wav",
                t, txt.getD "未识别", (audio.length : ℚ) / (cfg.samplerate * 2), d,
                audio.length, txt.isSome⟩ st.index
           disk := if cfg.has_speech_recognizer = true
              then disk_write
                ("rec_" ++ toString t ++ "_" ++ String.mk ((md5hex audio).data.take 8) ++ ".wav")
                audio st.disk
              else st.disk
           stat_total_recordings := st.stat_total_recordings + 1
           stat_successful_recognitions := st.stat_successful_recognitions +
              (if txt.getD "" = "" then 0 else 1) },
        some ("rec_" ++ toString t ++ "_" ++ String.mk ((md5hex audio).data.take 8) ++ ".wav")) := by
  unfold save_recording_file
  rw [if_neg (by simp [hsave])]
  simp only []
  rw [cleanup_of_le cfg
    ({ index := dict_insert (md5hex audio)
        ⟨"rec_" ++ toString t ++ "_" ++ String.mk ((md5hex audio).data.take 8) ++ ".wav",
          t, txt.getD "未识别", (audio.length : ℚ) / (cfg.samplerate * 2), d,
          audio.length, txt.isSome⟩ st.index
       disk := if cfg.has_speech_recognizer = true
          then disk_write
            ("rec_" ++ toString t ++ "_" ++ String.mk ((md5hex audio).data.take 8) ++ ".wav")
            audio st.disk
          else st.disk
       stat_total_recordings := st.stat_total_recordings
       stat_successful_recognitions := st.stat_successful_recognitions } : CacheState)
    (hroom _)]

end CacheHelpers

/-- Counterexample to claim C3 as stated: the same four audio bytes put
twice, at timestamps 100 and 101, land in two distinct wav files that both
hold that same content (the index, keyed by the hash, retains only the
newer row, leaving the older file orphaned), so a double put does create
two distinct files on disk for one content. -/
theorem claim_C3_cex :
    (save_recording_file c3_md5 c3_cfg
        (save_recording_file c3_md5 c3_cfg c3_empty c3_audio (some "hi") 100 0).1
        c3_audio (some "hi") 101 0).1.disk.map Prod.fst
      = ["rec_100_01234567.wav", "rec_101_01234567.wav"]
    ∧ (save_recording_file c3_md5 c3_cfg
        (save_recording_file c3_md5 c3_cfg c3_empty c3_audio (some "hi") 100 0).1
        c3_audio (some "hi") 101 0).1.disk.map Prod.snd
      = [c3_audio, c3_audio]
    ∧ ¬ ("rec_100_01234567.wav" = "rec_101_01234567.wav") := by decide

/-- Claim C3 amended: putting byte-identical audio twice keys both calls
by the same content hash — both returned paths carry that hash prefix and
the index ends with exactly one row for it, the second put overwriting the
first — and a second put at the same timestamp reuses the same filename
and creates no new file; with distinct timestamps, however, a second
distinct file is created and the first is left orphaned on disk (see the
counterexample). -/
theorem claim_C3_content_addressing (md5hex : List Nat → String) (cfg : CacheConfig)
    (st : CacheState) (audio : List Nat) (txt1 txt2 : Option String) (t1 t2 : Nat)
    (d1 d2 : ℚ) (hsave : cfg.save_recordings = true)
    (hnodup : (st.index.map Prod.fst).Nodup)
    (hroom : st.index.length + 1 ≤ cfg.max_cache_files) :
    (save_recording_file md5hex cfg st audio txt1 t1 d1).2
      = some ("rec_" ++ toString t1 ++ "_" ++ String.mk ((md5hex audio).data.take 8) ++ ".wav")
    ∧ (save_recording_file md5hex cfg
          (save_recording_file md5hex cfg st audio txt1 t1 d1).1 audio txt2 t2 d2).2
      = some ("rec_" ++ toString t2 ++ "_" ++ String.mk ((md5hex audio).data.take 8) ++ ".wav")
    ∧ ((save_recording_file md5hex cfg
          (save_recording_file md5hex cfg st audio txt1 t1 d1).1 audio txt2 t2 d2).1.index.filter
            (fun e => decide (e.1 = md5hex audio))).length = 1
    ∧ (t1 = t2 →
        (save_recording_file md5hex cfg
          (save_recording_file md5hex cfg st audio txt1 t1 d1).1 audio txt2 t2 d2).1.disk
        = (save_recording_file md5hex cfg st audio txt1 t1 d1).1.disk) := by
  have hroom1 : ∀ v : FileInfo,
      (dict_insert (md5hex audio) v st.index).length ≤ cfg.max_cache_files :=
    fun v => le_trans (dict_insert_length_le _ _ _) hroom
  rw [save_recording_file_of_room md5hex cfg st audio txt1 t1 d1 hsave hroom1]
  have hroom2 : ∀ v : FileInfo,
      (dict_insert (md5hex audio) v
        (dict_insert (md5hex audio)
          ⟨"rec_" ++ toString t1 ++ "_" ++ String.mk ((md5hex audio).data.take 8) ++ ".wav",
            t1, txt1.getD "未识别", (audio.length : ℚ) / (cfg.samplerate * 2), d1,
            audio.length, txt1.isSome⟩ st.index)).length ≤ cfg.max_cache_files := by
    intro v
    rw [dict_insert_length_mem _ _ _ (dict_insert_mem _ _ _)]
    exact hroom1 _
  rw [save_recording_file_of_room md5hex cfg _ audio txt2 t2 d2 hsave hroom2]
  refine ⟨rfl, rfl, ?_, ?_⟩
  · exact dict_insert_filter_key _ _ _ (dict_insert_nodup _ _ _ hnodup)
  · intro ht
    subst ht
    by_cases hrecz : cfg.has_speech_recognizer = true <;>
      simp [hrecz, disk_write_idem]

/-- Witness for the amended claim C3: the empty cache takes the same four
bytes twice at timestamp 100 — one index row for the hash, and the second
put leaves the disk exactly as the first put left it. -/
theorem claim_C3_content_addressing_witness :
    c3_empty.index.length + 1 ≤ c3_cfg.max_cache_files
    ∧ ((save_recording_file c3_md5 c3_cfg
          (save_recording_file c3_md5 c3_cfg c3_empty c3_audio (some "hi") 100 0).1
          c3_audio (some "yo") 100 0).1.index.filter
            (fun e => decide (e.1 = c3_md5 c3_audio))).length = 1
    ∧ (save_recording_file c3_md5 c3_cfg
          (save_recording_file c3_md5 c3_cfg c3_empty c3_audio (some "hi") 100 0).1
          c3_audio (some "yo") 100 0).1.disk
        = (save_recording_file c3_md5 c3_cfg c3_empty c3_audio (some "hi") 100 0).1.disk :=
  ⟨by decide,
    (claim_C3_content_addressing c3_md5 c3_cfg c3_empty c3_audio (some "hi") (some "yo")
        100 100 0 0 rfl (by decide) (by decide)).2.2.1,
    (claim_C3_content_addressing c3_md5 c3_cfg c3_empty c3_audio (some "hi") (some "yo")
        100 100 0 0 rfl (by decide) (by decide)).2.2.2 rfl⟩

section DurationHelpers

/-- stereo_to_mono distributes over append at frame boundaries. -/
theorem stereo_to_mono_append : ∀ (xs : List Nat), xs.length % 4 = 0 → ∀ ys : List Nat,
    stereo_to_mono (xs ++ ys) = stereo_to_mono xs ++ stereo_to_mono ys
  | [], _, ys => by simp [stereo_to_mono]
  | [a], h, ys => by simp at h
  | [a, b], h, ys => by simp at h
  | [a, b, c], h, ys => by simp at h
  | a :: b :: c :: d :: rest, h, ys => by
      have h4 : rest.length % 4 = 0 := by
        simp only [List.length_cons] at h
        omega
      simp only [List.cons_append, List.append_eq, stereo_to_mono]
      rw [stereo_to_mono_append rest h4 ys]

/-- Each well-formed buffered window contributes at least 0.3 s of mono
bytes to the flattened utterance. -/
theorem mono_flatten_length (cfg : Config) (segs : List (List Nat))
    (h : ∀ b ∈ segs, b.length % 4 = 0
      ∧ (3/10 : ℚ) * (2 * cfg.samplerate) ≤ ((stereo_to_mono b).length : ℚ)) :
    (segs.length : ℚ) * ((3/10 : ℚ) * (2 * cfg.samplerate))
      ≤ ((stereo_to_mono segs.flatten).length : ℚ) := by
  induction segs with
  | nil => simp [stereo_to_mono]
  | cons b rest ih =>
    have hb := h b (by simp)
    have hrest := ih (fun x hx => h x (by simp [hx]))
    rw [List.flatten_cons, stereo_to_mono_append b hb.1 rest.flatten]
    rw [List.length_append]
    simp only [List.length_cons]
    push_cast
    nlinarith [hb.2, hrest]

/-- process_speech_segments preserves the queued-item duration bound: the
item it may enqueue satisfies speech duration at most total duration. -/
theorem process_queue_invariant (cfg : Config) (s : RecState) (hrate : 0 < cfg.samplerate)
    (hdur : s.actual_speech_duration ≤ (3/10 : ℚ) * s.speech_segments.length)
    (hgood : ∀ b ∈ s.speech_segments, b.length % 4 = 0
      ∧ (3/10 : ℚ) * (2 * cfg.samplerate) ≤ ((stereo_to_mono b).length : ℚ))
    (hq : ∀ it ∈ s.asr_queue, it.actual_speech_duration ≤ it.audio_length) :
    ∀ it ∈ (process_speech_segments cfg s).asr_queue,
      it.actual_speech_duration ≤ it.audio_length := by
  unfold process_speech_segments
  by_cases h1 : s.speech_segments = [] ∨ s.is_processing = true
  · simpa [h1] using hq
  · rw [if_neg h1]
    simp only []
    by_cases h2 : s.enable_asr = true ∧ s.has_speech_recognizer = true
    · rw [if_pos h2]
      by_cases h3 : 0 < cfg.asr_queue_size ∧ cfg.asr_queue_size ≤ s.asr_queue.length
      · rw [if_pos h3]
        simpa using hq
      · rw [if_neg h3]
        intro it hit
        simp only [List.mem_append, List.mem_singleton] at hit
        rcases hit with hit | hit
        · exact hq it (by simpa using hit)
        · subst hit
          simp only []
          have hlen := mono_flatten_length cfg s.speech_segments hgood
          have h2r : (0 : ℚ) < cfg.samplerate * 2 := by linarith
          rw [le_div_iff h2r]
          calc s.actual_speech_duration * (cfg.samplerate * 2)
              ≤ ((3/10 : ℚ) * s.speech_segments.length) * (cfg.samplerate * 2) := by
                apply mul_le_mul_of_nonneg_right hdur (by linarith)
            _ = (s.speech_segments.length : ℚ) * ((3/10 : ℚ) * (2 * cfg.samplerate)) := by
                ring
            _ ≤ ((stereo_to_mono s.speech_segments.flatten).length : ℚ) := hlen
    · rw [if_neg h2]
      simpa using hq

/-- process_speech_segments leaves the segment list empty or untouched. -/
theorem process_segments_cases (cfg : Config) (s : RecState) :
    (process_speech_segments cfg s).speech_segments = []
    ∨ (process_speech_segments cfg s).speech_segments = s.speech_segments := by
  unfold process_speech_segments
  by_cases h1 : s.speech_segments = [] ∨ s.is_processing = true
  · simp [h1]
  · rw [if_neg h1]
    simp only []
    by_cases h2 : s.enable_asr = true ∧ s.has_speech_recognizer = true
    · rw [if_pos h2]
      by_cases h3 : 0 < cfg.asr_queue_size ∧ cfg.asr_queue_size ≤ s.asr_queue.length
      · rw [if_pos h3]
        simp
      · rw [if_neg h3]
        simp
    · rw [if_neg h2]
      simp

/-- The end-of-recording check preserves the segmentation invariant. -/
theorem seg_invariant_end_check (cfg : Config) (s : RecState) (now : ℚ)
    (hrate : 0 < cfg.samplerate) (hs : seg_invariant cfg s) :
    seg_invariant cfg (end_of_recording_check cfg s now) := by
  obtain ⟨hdur, hgood, hq⟩ := hs
  unfold end_of_recording_check
  by_cases h1 : s.is_recording_speech = true ∧ cfg.silence_timeout < now - s.last_active_time
      ∧ s.is_processing = false
  · rw [if_pos h1]
    simp only []
    by_cases h2 : cfg.min_speech_duration ≤ s.actual_speech_duration
    · rw [if_pos h2]
      have hq2 := process_queue_invariant cfg
        { s with is_paused := true, show_standby_status := false } hrate
        (by simpa using hdur) (by simpa using hgood) (by simpa using hq)
      have hseg2 := process_segments_cases cfg
        { s with is_paused := true, show_standby_status := false }
      constructor
      · split <;>
        · simp only []
          positivity
      constructor
      · split <;>
        · simp only []
          rcases hseg2 with hh | hh <;> rw [hh] <;> simp_all
      · split <;>
        · simp only []
          simpa using hq2
    · rw [if_neg h2]
      refine ⟨?_, ?_, ?_⟩
      · split <;> · simp only []; positivity
      · split <;> · simp
      · split <;> · simpa using hq
  · rw [if_neg h1]
    exact ⟨hdur, hgood, hq⟩

/-- One process_audio_buffer step preserves the segmentation invariant. -/
theorem seg_invariant_step (cfg : Config) (s : RecState) (w : Window) (now : ℚ)
    (hrate : 0 < cfg.samplerate) (hw : good_window cfg w) (hs : seg_invariant cfg s) :
    seg_invariant cfg (process_audio_buffer cfg s w now) := by
  obtain ⟨hdur, hgood, hq⟩ := hs
  obtain ⟨hw1, hw2⟩ := hw
  unfold process_audio_buffer
  by_cases hp : s.is_paused = true
  · rw [if_pos hp]
    exact ⟨hdur, hgood, hq⟩
  · rw [if_neg hp]
    by_cases hc : is_speech_candidate w
    · rw [if_pos hc]
      simp only []
      by_cases hearly : s.is_recording_speech = false
          ∧ s.consecutive_speech_count + 1 < cfg.speech_confirmation_threshold
      · rw [if_pos (by simpa using hearly)]
        exact ⟨by simpa using hdur, by simpa using hgood, by simpa using hq⟩
      · rw [if_neg (by simpa using hearly)]
        by_cases hrec : s.is_recording_speech = true
        · rw [if_pos (by simpa using hrec)]
          apply seg_invariant_end_check cfg _ now hrate
          refine ⟨?_, ?_, ?_⟩
          · simp only [List.length_append, List.length_singleton]
            push_cast
            linarith [hdur]
          · intro b hb
            simp only [List.mem_append, List.mem_singleton] at hb
            rcases hb with hb | hb
            · exact hgood b (by simpa using hb)
            · subst hb
              exact ⟨hw1, hw2⟩
          · simpa using hq
        · rw [if_neg (by simpa using hrec)]
          apply seg_invariant_end_check cfg _ now hrate
          refine ⟨?_, ?_, ?_⟩
          · simp
          · intro b hb
            simp only [List.nil_append, List.mem_singleton] at hb
            subst hb
            exact ⟨hw1, hw2⟩
          · simpa using hq
    · rw [if_neg hc]
      apply seg_invariant_end_check cfg _ now hrate
      by_cases hrec : s.is_recording_speech = true
      · refine ⟨?_, ?_, ?_⟩
        · simp only [hrec, if_true, ite_true]
          simp only [List.length_append, List.length_singleton]
          push_cast
          linarith [hdur]
        · intro b hb
          simp only [hrec, if_true, ite_true, List.mem_append, List.mem_singleton] at hb
          rcases hb with hb | hb
          · exact hgood b (by simpa using hb)
          · subst hb
            exact ⟨hw1, hw2⟩
        · simpa using hq
      · refine ⟨?_, ?_, ?_⟩
        · simp only [hrec, if_false, ite_false]
          simpa using hdur
        · intro b hb
          simp only [hrec, if_false, ite_false] at hb
          exact hgood b (by simpa using hb)
        · simpa using hq

/-- The invariant holds along any window sequence. -/
theorem seg_invariant_run (cfg : Config) (hrate : 0 < cfg.samplerate) :
    ∀ (ws : List (Window × ℚ)) (s : RecState), seg_invariant cfg s →
      (∀ p ∈ ws, good_window cfg p.1) → seg_invariant cfg (run_windows cfg s ws)
  | [], s, hs, _ => hs
  | (w, t) :: rest, s, hs, hws => by
      apply seg_invariant_run cfg hrate rest
      · exact seg_invariant_step cfg s w t hrate (hws (w, t) (by simp)) hs
      · intro p hp
        exact hws p (by simp [hp])

end DurationHelpers

/-- Claim C9: along any run from the freshly initialised recorder over
well-formed detection windows (whole stereo frames of at least the 0.3 s
drain threshold), every item handed to the dispatch queue satisfies
speech duration at most total duration, where speech duration accrues
0.3 s per speech-positive window and total duration is the combined mono
byte count divided by samplerate times two bytes per sample. -/
theorem claim_C9_speech_le_total (cfg : Config) (t0 : ℚ) (ws : List (Window × ℚ))
    (hrate : 0 < cfg.samplerate) (hws : ∀ p ∈ ws, good_window cfg p.1) :
    ∀ it ∈ (run_windows cfg (init_state t0) ws).asr_queue,
      it.actual_speech_duration ≤ it.audio_length := by
  have h0 : seg_invariant cfg (init_state t0) := by
    refine ⟨by simp [init_state], by simp [init_state], by simp [init_state]⟩
  exact (seg_invariant_run cfg hrate ws (init_state t0) h0 hws).2.2

/-- Witness for claim C9: rate 10, a single 12-byte speech window at the
exact drain threshold. -/
theorem claim_C9_speech_le_total_witness :
    (0 : ℚ) < c9_cfg.samplerate
    ∧ (∀ it ∈ (run_windows c9_cfg (init_state 0) [(c9_w, 1)]).asr_queue,
        it.actual_speech_duration ≤ it.audio_length) :=
  ⟨by norm_num [c9_cfg],
    claim_C9_speech_le_total c9_cfg 0 [(c9_w, 1)] (by norm_num [c9_cfg])
      (by
        intro p hp
        rw [List.mem_singleton] at hp
        subst hp
        norm_num [good_window, c9_w, c9_cfg, stereo_to_mono])⟩

section CacheBoundHelpers

/-- The comparator _cleanup_recording_cache sorts by is transitive. -/
theorem created_le_trans : ∀ a b c : String × FileInfo,
    decide (a.2.created ≤ b.2.created) = true →
    decide (b.2.created ≤ c.2.created) = true →
    decide (a.2.created ≤ c.2.created) = true := by
  intro a b c hab hbc
  simp only [decide_eq_true_eq] at *
  omega

/-- The comparator is total. -/
theorem created_le_total : ∀ a b : String × FileInfo,
    (decide (a.2.created ≤ b.2.created) || decide (b.2.created ≤ a.2.created)) = true := by
  intro a b
  rcases Nat.le_total a.2.created b.2.created with h | h <;> simp [h]

/-- The eviction loop of _cleanup_recording_cache removes from the index
exactly the rows whose key is among the removed items. -/
theorem cleanup_fold_index (items : List (String × FileInfo)) (st : CacheState) :
    (items.foldl (fun acc item =>
      { acc with
          disk := acc.disk.filter (fun f => decide (¬ f.1 = item.2.filename))
          index := acc.index.filter (fun e => decide (¬ e.1 = item.1)) }) st).index
    = st.index.filter (fun e => decide (¬ e.1 ∈ items.map Prod.fst)) := by
  induction items generalizing st with
  | nil => simp
  | cons i rest ih =>
    rw [List.foldl_cons, ih]
    rw [List.filter_filter]
    congr 1
    funext e
    by_cases h1 : e.1 = i.1 <;> by_cases h2 : e.1 ∈ rest.map Prod.fst <;>
      simp [h1, h2]

/-- Removing one present key from a distinct-key index drops exactly one
row. -/
theorem length_filter_single_key (l : List (String × FileInfo)) (k : String)
    (hnodup : (l.map Prod.fst).Nodup) (hk : k ∈ l.map Prod.fst) :
    (l.filter (fun e => decide (¬ e.1 = k))).length + 1 = l.length := by
  induction l with
  | nil => simp at hk
  | cons e rest ih =>
    rw [List.map_cons, List.nodup_cons] at hnodup
    obtain ⟨hnm, hnd⟩ := hnodup
    by_cases he : e.1 = k
    · have hall : rest.filter (fun x => decide (¬ x.1 = k)) = rest := by
        apply List.filter_eq_self.mpr
        intro x hx
        simp only [decide_eq_true_eq]
        intro hxk
        exact hnm (List.mem_map.mpr ⟨x, hx, by rw [hxk, he]⟩)
      have hstep : (e :: rest).filter (fun x => decide (¬ x.1 = k))
          = rest.filter (fun x => decide (¬ x.1 = k)) := by
        rw [List.filter_cons]
        simp [he]
      rw [hstep, hall, List.length_cons]
    · have hk2 : k ∈ rest.map Prod.fst := by
        rw [List.map_cons] at hk
        rcases List.mem_cons.mp hk with h3 | h3
        · exact absurd h3.symm he
        · exact h3
      have hih := ih hnd hk2
      have hstep : (e :: rest).filter (fun x => decide (¬ x.1 = k))
          = e :: rest.filter (fun x => decide (¬ x.1 = k)) := by
        rw [List.filter_cons]
        simp [he]
      rw [hstep, List.length_cons, List.length_cons]
      omega

/-- A present key still occurs after filtering away a different key. -/
theorem mem_keys_filter_of_ne (l : List (String × FileInfo)) (k k2 : String)
    (hne : ¬ k2 = k) (hmem : k2 ∈ l.map Prod.fst) :
    k2 ∈ (l.filter (fun e => decide (¬ e.1 = k))).map Prod.fst := by
  obtain ⟨x, hx, hxk⟩ := List.mem_map.mp hmem
  refine List.mem_map.mpr ⟨x, ?_, hxk⟩
  refine List.mem_filter.mpr ⟨hx, ?_⟩
  simp only [decide_eq_true_eq]
  rw [hxk]
  exact hne

/-- Removing a distinct set of present keys from a distinct-key index
drops exactly that many rows. -/
theorem length_filter_keys (ks : List String) :
    ∀ l : List (String × FileInfo), (l.map Prod.fst).Nodup → ks.Nodup →
    (∀ k ∈ ks, k ∈ l.map Prod.fst) →
    (l.filter (fun e => decide (¬ e.1 ∈ ks))).length = l.length - ks.length := by
  induction ks with
  | nil => intro l _ _ _; simp
  | cons k rest ih =>
    intro l hnodup hks hsub
    rw [List.nodup_cons] at hks
    obtain ⟨hknr, hrest⟩ := hks
    have hsplit : l.filter (fun e => decide (¬ e.1 ∈ k :: rest))
        = (l.filter (fun e => decide (¬ e.1 = k))).filter
            (fun e => decide (¬ e.1 ∈ rest)) := by
      rw [List.filter_filter]
      congr 1
      funext e
      by_cases h1 : e.1 = k <;> by_cases h2 : e.1 ∈ rest <;> simp [h1, h2]
    rw [hsplit]
    have hnodup2 : ((l.filter (fun e => decide (¬ e.1 = k))).map Prod.fst).Nodup :=
      ((List.filter_sublist l).map Prod.fst).nodup hnodup
    have hsub2 : ∀ k2 ∈ rest, k2 ∈ (l.filter (fun e => decide (¬ e.1 = k))).map Prod.fst := by
      intro k2 hk2
      exact mem_keys_filter_of_ne l k k2 (fun hh => hknr (hh ▸ hk2)) (hsub k2 (by simp [hk2]))
    rw [ih _ hnodup2 hrest hsub2]
    have hone := length_filter_single_key l k hnodup (hsub k (by simp))
    simp only [List.length_cons]
    omega

/-- The cache cleanup never leaves more than max_cache_files rows, and
preserves key distinctness. -/
theorem cleanup_length_nodup (cfg : CacheConfig) (st : CacheState)
    (hnodup : (st.index.map Prod.fst).Nodup) :
    (cleanup_recording_cache cfg st).index.length ≤ cfg.max_cache_files
    ∧ ((cleanup_recording_cache cfg st).index.map Prod.fst).Nodup := by
  unfold cleanup_recording_cache
  by_cases hle : st.index.length ≤ cfg.max_cache_files
  · rw [if_pos hle]
    exact ⟨hle, hnodup⟩
  · rw [if_neg hle]
    simp only []
    rw [cleanup_fold_index]
    have hperm := List.mergeSort_perm st.index
      (fun a b => decide (a.2.created ≤ b.2.created))
    have hsubL : ∀ i ∈ (st.index.mergeSort
        (fun a b => decide (a.2.created ≤ b.2.created))).take
          (st.index.length - cfg.max_cache_files), i ∈ st.index :=
      fun i hi => hperm.subset ((List.take_sublist _ _).subset hi)
    have hks_nodup : (((st.index.mergeSort
        (fun a b => decide (a.2.created ≤ b.2.created))).take
          (st.index.length - cfg.max_cache_files)).map Prod.fst).Nodup := by
      rw [List.map_take]
      exact ((List.take_sublist _ _).nodup ((hperm.map Prod.fst).nodup_iff.mpr hnodup))
    have hks_sub : ∀ k ∈ ((st.index.mergeSort
        (fun a b => decide (a.2.created ≤ b.2.created))).take
          (st.index.length - cfg.max_cache_files)).map Prod.fst,
        k ∈ st.index.map Prod.fst := by
      intro k hk
      obtain ⟨x, hx, hxk⟩ := List.mem_map.mp hk
      exact List.mem_map.mpr ⟨x, hsubL x hx, hxk⟩
    have hlen := length_filter_keys _ st.index hnodup hks_nodup hks_sub
    constructor
    · rw [hlen]
      have hkslen : (((st.index.mergeSort
          (fun a b => decide (a.2.created ≤ b.2.created))).take
            (st.index.length - cfg.max_cache_files)).map Prod.fst).length
          = st.index.length - cfg.max_cache_files := by
        rw [List.length_map, List.length_take, hperm.length_eq]
        omega
      rw [hkslen]
      omega
    · exact ((List.filter_sublist st.index).map Prod.fst).nodup hnodup

/-- _save_recording_file keeps the index keys distinct and the row count
within the limit. -/
theorem save_preserves_invariant (md5hex : List Nat → String) (cfg : CacheConfig)
    (st : CacheState) (audio : List Nat) (txt : Option String) (t : Nat) (d : ℚ)
    (hnodup : (st.index.map Prod.fst).Nodup)
    (hlen : st.index.length ≤ cfg.max_cache_files) :
    (((save_recording_file md5hex cfg st audio txt t d).1.index.map Prod.fst).Nodup
      ∧ (save_recording_file md5hex cfg st audio txt t d).1.index.length
        ≤ cfg.max_cache_files) := by
  unfold save_recording_file
  by_cases hsave : cfg.save_recordings = false
  · rw [if_pos hsave]
    exact ⟨hnodup, hlen⟩
  · rw [if_neg hsave]
    simp only []
    have hnd2 := dict_insert_nodup (md5hex audio)
      ⟨"rec_" ++ toString t ++ "_" ++ String.mk ((md5hex audio).data.take 8) ++ ".wav",
        t, txt.getD "未识别", (audio.length : ℚ) / (cfg.samplerate * 2), d,
        audio.length, txt.isSome⟩ st.index hnodup
    have hcl := cleanup_length_nodup cfg
      { index := dict_insert (md5hex audio)
          ⟨"rec_" ++ toString t ++ "_" ++ String.mk ((md5hex audio).data.take 8) ++ ".wav",
            t, txt.getD "未识别", (audio.length : ℚ) / (cfg.samplerate * 2), d,
            audio.length, txt.isSome⟩ st.index
        disk := if cfg.has_speech_recognizer = true
          then disk_write
            ("rec_" ++ toString t ++ "_" ++ String.mk ((md5hex audio).data.take 8) ++ ".wav")
            audio st.disk
          else st.disk
        stat_total_recordings := st.stat_total_recordings
        stat_successful_recognitions := st.stat_successful_recognitions } hnd2
    exact ⟨hcl.2, hcl.1⟩

/-- The invariant holds after any sequence of puts. -/
theorem apply_puts_invariant (md5hex : List Nat → String) (cfg : CacheConfig) :
    ∀ (puts : List PutArgs) (st : CacheState),
      (st.index.map Prod.fst).Nodup → st.index.length ≤ cfg.max_cache_files →
      ((apply_puts md5hex cfg st puts).index.map Prod.fst).Nodup
        ∧ (apply_puts md5hex cfg st puts).index.length ≤ cfg.max_cache_files
  | [], st, hnodup, hlen => ⟨hnodup, hlen⟩
  | p :: rest, st, hnodup, hlen => by
      have hp := save_preserves_invariant md5hex cfg st p.audio p.recognized_text p.now
        p.speech_dur hnodup hlen
      exact apply_puts_invariant md5hex cfg rest _ hp.1 hp.2

/-- The startup guard establishes the invariant from any distinct-key
loaded index. -/
theorem startup_invariant (cfg : CacheConfig) (st : CacheState)
    (hnodup : (st.index.map Prod.fst).Nodup) :
    ((startup_cleanup cfg st).index.map Prod.fst).Nodup
      ∧ (startup_cleanup cfg st).index.length ≤ cfg.max_cache_files := by
  unfold startup_cleanup
  by_cases h : cfg.max_cache_files < st.index.length
  · rw [if_pos h]
    exact ⟨(cleanup_length_nodup cfg st hnodup).2, (cleanup_length_nodup cfg st hnodup).1⟩
  · rw [if_neg h]
    exact ⟨hnodup, by omega⟩

end CacheBoundHelpers

/-- Claim C5: starting from any index left by a prior run (distinct hash
keys, as JSON object keys are), after the startup cleanup and any sequence
of _save_recording_file calls the retained index never exceeds
max_cache_files rows; and eviction is oldest-by-creation-time first: on
any distinct-key cache state, every row the cleanup evicts has a created
timestamp at most that of every retained row. -/
theorem claim_C5_cache_bound (md5hex : List Nat → String) (cfg : CacheConfig)
    (st0 : CacheState) (puts : List PutArgs)
    (hnodup : (st0.index.map Prod.fst).Nodup) :
    (apply_puts md5hex cfg (startup_cleanup cfg st0) puts).index.length
      ≤ cfg.max_cache_files
    ∧ (∀ st : CacheState, (st.index.map Prod.fst).Nodup →
        ∀ e ∈ st.index, e ∉ (cleanup_recording_cache cfg st).index →
        ∀ r ∈ (cleanup_recording_cache cfg st).index, e.2.created ≤ r.2.created) := by
  constructor
  · have hstart := startup_invariant cfg st0 hnodup
    exact (apply_puts_invariant md5hex cfg puts _ hstart.1 hstart.2).2
  · intro st hnd e he hout r hr
    unfold cleanup_recording_cache at hout hr
    by_cases hle : st.index.length ≤ cfg.max_cache_files
    · rw [if_pos hle] at hout
      exact absurd he hout
    · rw [if_neg hle] at hout hr
      simp only [] at hout hr
      rw [cleanup_fold_index] at hout hr
      have hperm := List.mergeSort_perm st.index
        (fun a b => decide (a.2.created ≤ b.2.created))
      have hek : e.1 ∈ ((st.index.mergeSort
          (fun a b => decide (a.2.created ≤ b.2.created))).take
            (st.index.length - cfg.max_cache_files)).map Prod.fst := by
        by_contra hnk
        exact hout (List.mem_filter.mpr ⟨he, by simpa using hnk⟩)
      obtain ⟨hr_mem, hr_key⟩ := List.mem_filter.mp hr
      have hr_notks : ¬ r.1 ∈ ((st.index.mergeSort
          (fun a b => decide (a.2.created ≤ b.2.created))).take
            (st.index.length - cfg.max_cache_files)).map Prod.fst := by
        simpa using hr_key
      obtain ⟨i, hi_mem, hi_key⟩ := List.mem_map.mp hek
      have hi_in : i ∈ st.index := hperm.subset ((List.take_sublist _ _).subset hi_mem)
      have hie : i = e :=
        List.inj_on_of_nodup_map hnd hi_in he hi_key
      have he_take : e ∈ (st.index.mergeSort
          (fun a b => decide (a.2.created ≤ b.2.created))).take
            (st.index.length - cfg.max_cache_files) := hie ▸ hi_mem
      have hr_sorted : r ∈ st.index.mergeSort
          (fun a b => decide (a.2.created ≤ b.2.created)) :=
        hperm.mem_iff.mpr hr_mem
      have hsplit : (st.index.mergeSort (fun a b => decide (a.2.created ≤ b.2.created)))
          = (st.index.mergeSort (fun a b => decide (a.2.created ≤ b.2.created))).take
              (st.index.length - cfg.max_cache_files)
            ++ (st.index.mergeSort (fun a b => decide (a.2.created ≤ b.2.created))).drop
              (st.index.length - cfg.max_cache_files) :=
        (List.take_append_drop _ _).symm
      have hr_drop : r ∈ (st.index.mergeSort
          (fun a b => decide (a.2.created ≤ b.2.created))).drop
            (st.index.length - cfg.max_cache_files) := by
        rcases List.mem_append.mp (hsplit ▸ hr_sorted) with hh | hh
        · exact absurd (List.mem_map.mpr ⟨r, hh, rfl⟩) hr_notks
        · exact hh
      have hsorted := List.sorted_mergeSort created_le_trans created_le_total st.index
      rw [← List.take_append_drop (st.index.length - cfg.max_cache_files)
        (st.index.mergeSort (fun a b => decide (a.2.created ≤ b.2.created)))] at hsorted
      have hcross := (List.pairwise_append.mp hsorted).2.2 e he_take r hr_drop
      simpa using hcross

/-- Witness for claim C5: a two-row index with distinct keys loaded
against a one-row limit, no further puts: at most one row is retained. -/
theorem claim_C5_cache_bound_witness :
    (c5_loaded.index.map Prod.fst).Nodup
    ∧ (apply_puts c3_md5 c5_cfg (startup_cleanup c5_cfg c5_loaded) []).index.length
        ≤ c5_cfg.max_cache_files :=
  ⟨by decide, (claim_C5_cache_bound c3_md5 c5_cfg c5_loaded [] (by decide)).1⟩

end VoiceChat
